import Mathlib

/-!
Verification of the sweep-driver script `grpc_p2p_client/publish_experiment.py`.

The script has three phases: a run phase that invokes an external publish
client once per (datasize, frequency) combination, a trace-reduction phase
that shells out to a latency utility (pure subprocess I/O, not modelled), and
an aggregation phase that filters the utility's output lines, slices them
into per-combination blocks, averages three numeric columns per block and
writes the blocks plus summary lines to `computed.out`.

Modelling conventions:
* Text lines are modelled as `String`s without their terminating newline;
  `readlines` keeps the `"\n"` and the write loop re-appends it after
  `rstrip`, so dropping the terminator on both sides is faithful for every
  operation the script performs (strip, startswith, split, rstrip).
* Python floats are modelled as `ℚ`.  The script only ever parses plain
  decimal literals, which are exact in `ℚ`; `parseFloat` is the
  corresponding restriction of Python's `float` (no exponent, no inf/nan).
* A parse failure (`ValueError` from `float`, or `IndexError` from a short
  row) is modelled as `none`; the aggregation loop propagates it as an
  uncaught fatal error, modelled by the `Bool` component of its result
  (`true` = ran to completion, `false` = died at the first bad block).
* `computed.out` is modelled as a `String`; `fileWrite` is `open(..., "w")`
  followed by a write (truncate), `fileAppend` is `open(..., "a")` followed
  by a write.
-/

/-- Python's whitespace set for `str.strip` / `str.split` (space, tab,
newline, carriage return, vertical tab, form feed). -/
def pyIsSpace (c : Char) : Bool :=
  c = ' ' || c = '\t' || c = '\n' || c = '\r' || c = '\x0b' || c = '\x0c'

/-- Python `str.strip()`: drop leading and trailing whitespace. -/
def pyStrip (s : String) : String :=
  String.mk (((s.toList.dropWhile pyIsSpace).reverse.dropWhile pyIsSpace).reverse)

/-- Python `str.rstrip()`: drop trailing whitespace. -/
def pyRstrip (s : String) : String :=
  String.mk ((s.toList.reverse.dropWhile pyIsSpace).reverse)

/-- Python `str.startswith(pre)` on the raw (untrimmed) string. -/
def pyStartswith (s pre : String) : Bool :=
  pre.toList.isPrefixOf s.toList

/-- Worker for `pySplit`: `acc` holds the characters of the current word in
reverse. -/
def pySplitGo : List Char → List Char → List String
  | [], acc => if acc.isEmpty then [] else [String.mk acc.reverse]
  | c :: cs, acc =>
    if pyIsSpace c then
      if acc.isEmpty then pySplitGo cs [] else String.mk acc.reverse :: pySplitGo cs []
    else pySplitGo cs (c :: acc)

/-- Python `str.split()` with no argument: split on whitespace runs and
discard empty pieces. -/
def pySplit (s : String) : List String :=
  pySplitGo s.toList []

/-- The filter of line 66 of `publish_experiment.py`:
`line.strip() and not line.startswith("#") and not line.startswith("msgid")`. -/
def keepLine (line : String) : Bool :=
  decide (pyStrip line ≠ "") && !pyStartswith line "#" && !pyStartswith line "msgid"

/-- Line 66: `data_lines = [line for line in all_lines if ...]`. -/
def filterDataLines (allLines : List String) : List String :=
  allLines.filter keepLine

/-- The decimal digit character for `k < 10` (used to render numbers). -/
def digitChar (k : ℕ) : Char :=
  match k with
  | 0 => '0' | 1 => '1' | 2 => '2' | 3 => '3' | 4 => '4'
  | 5 => '5' | 6 => '6' | 7 => '7' | 8 => '8' | _ => '9'

/-- Value of a most-significant-first digit string. -/
def digitsVal (ds : List Char) : ℕ :=
  ds.foldl (fun a c => a * 10 + (c.toNat - 48)) 0

/-- Split an optional leading sign off a character list; `true` means
negative. -/
def splitSign : List Char → Bool × List Char
  | '-' :: cs => (true, cs)
  | '+' :: cs => (false, cs)
  | cs => (false, cs)

/-- Python `float(s)` restricted to plain decimal literals, the only form the
latency utility emits: optional sign, digits, optional `"."` and fraction
digits, at least one digit overall.  Any other shape raises `ValueError`,
modelled as `none`.  The value is exact (`mkRat`). -/
def parseFloat (s : String) : Option ℚ :=
  let sp := splitSign s.toList
  let ip := sp.2.takeWhile Char.isDigit
  let sgn : ℤ := if sp.1 then -1 else 1
  match sp.2.dropWhile Char.isDigit with
  | [] =>
    if ip.isEmpty then none
    else some (mkRat (sgn * (digitsVal ip : ℤ)) 1)
  | '.' :: fr =>
    let fp := fr.takeWhile Char.isDigit
    if (fr.dropWhile Char.isDigit).isEmpty then
      if ip.isEmpty && fp.isEmpty then none
      else some (mkRat (sgn * ((digitsVal ip : ℤ) * 10 ^ fp.length + (digitsVal fp : ℤ)))
        (10 ^ fp.length))
    else none
  | _ => none

/-- Lines 86-89 of the script for one retained line:
`parts = line.split(); float(parts[2]); float(parts[3]); float(parts[4])`.
A missing column (`IndexError`) or a non-numeric field (`ValueError`) is a
fatal error, modelled as `none`. -/
def parseLineStats (line : String) : Option (ℚ × ℚ × ℚ) :=
  let parts := pySplit line
  match parts[2]?, parts[3]?, parts[4]? with
  | some s2, some s3, some s4 =>
    match parseFloat s2, parseFloat s3, parseFloat s4 with
    | some m, some p90, some p95 => some (m, p90, p95)
    | _, _, _ => none
  | _, _, _ => none

/-- Written from the words of claim C3 only, for comparison with
`parseLineStats` (which is translated from the source): the variant that
would parse whitespace-delimited columns 3, 4 and 5 (0-indexed). -/
def parseLineStatsAt345 (line : String) : Option (ℚ × ℚ × ℚ) :=
  let parts := pySplit line
  match parts[3]?, parts[4]?, parts[5]? with
  | some s3, some s4, some s5 =>
    match parseFloat s3, parseFloat s4, parseFloat s5 with
    | some m, some p90, some p95 => some (m, p90, p95)
    | _, _, _ => none
  | _, _, _ => none

/-- The running-total loop of lines 81-92: left fold of the three column
values over the block's lines, failing on the first malformed line. -/
def sumStatsGo (acc : ℚ × ℚ × ℚ) : List String → Option (ℚ × ℚ × ℚ)
  | [] => some acc
  | l :: ls =>
    match parseLineStats l with
    | none => none
    | some v => sumStatsGo (acc.1 + v.1, acc.2.1 + v.2.1, acc.2.2 + v.2.2) ls

/-- Totals of the three numeric columns over a block (lines 81-92). -/
def sumStats (ls : List String) : Option (ℚ × ℚ × ℚ) :=
  sumStatsGo (0, 0, 0) ls

/-- Most-significant-last digit list of `n`, with explicit fuel so that the
definition is structural (the call is always made with enough fuel). -/
def natDigitsRevFuel : ℕ → ℕ → List Char
  | 0, _ => []
  | fuel + 1, n =>
    if n < 10 then [digitChar n]
    else digitChar (n % 10) :: natDigitsRevFuel fuel (n / 10)

/-- Python `str(n)` for a natural number. -/
def natStr (n : ℕ) : String :=
  String.mk (natDigitsRevFuel (n + 1) n).reverse

/-- Value of a least-significant-first digit list (proof helper for
`natStr`). -/
def digitsRevVal : List Char → ℕ
  | [] => 0
  | c :: cs => (c.toNat - 48) + 10 * digitsRevVal cs

/-- Python `f"{x:.2f}"`: render with exactly two digits after the decimal
point.  Ties (exact multiples of `1/200`) are rounded up here while Python
rounds the underlying double to even; the script's data never makes the
difference observable, and the two-decimal shape is identical. -/
def fmt2 (q : ℚ) : String :=
  let n : ℤ := Rat.floor (q * 100 + 1 / 2)
  let m : ℕ := n.natAbs
  (if q < 0 then "-" else "") ++ natStr (m / 100) ++ "." ++
    String.mk [digitChar (m / 10 % 10), digitChar (m % 10)]

/-- Python `s.ljust(w)` as performed by the `{...:10}` format specifier. -/
def ljust (s : String) (w : ℕ) : String :=
  s ++ String.mk (List.replicate (w - s.length) ' ')

/-- The header row written by line 70, including its newline:
`f"{"msgid":10}\t{"n":10}\t{"mean":10}\t{"p90":10}\t{"p95":10}\n"`. -/
def headerText : String :=
  ljust "msgid" 10 ++ "\t" ++ ljust "n" 10 ++ "\t" ++ ljust "mean" 10 ++ "\t" ++
    ljust "p90" 10 ++ "\t" ++ ljust "p95" 10 ++ "\n"

/-- The summary comment line of line 103 (without its newline):
`f"# datasize={datasize} freq={freq} avg_mean={avg_mean:.2f} ..."`. -/
def summaryLine (d : ℕ) (f : String) (am a90 a95 : ℚ) : String :=
  "# datasize=" ++ natStr d ++ " freq=" ++ f ++ " avg_mean=" ++ fmt2 am ++
    " avg_p90=" ++ fmt2 a90 ++ " avg_p95=" ++ fmt2 a95

/-- The raw lines written for one block by the loop of lines 101-102:
each sliced line right-stripped (the newline is re-appended on write). -/
def blockRawLines (ls : List String) : List String :=
  ls.map pyRstrip

/-- Slice `data_lines[start_idx:end_idx]` with `start_idx = i * count` (lines
76-78); Python slicing clamps at the end of the list. -/
def sliceFor (cnt i : ℕ) (dataLines : List String) : List String :=
  (dataLines.drop (i * cnt)).take cnt

/-- Concatenation of a list of strings (newlines are already part of the
pieces where needed). -/
def strJoin : List String → String
  | [] => ""
  | s :: ss => s ++ strJoin ss

/-- Everything one loop iteration (lines 80-103) appends to `computed.out`
for combination `(d, f)` with sliced lines `ls`: the right-stripped raw
lines, the summary comment line, and a blank line.  `none` models the
uncaught parse error, which aborts the iteration before anything of this
block is written. -/
def blockText (d : ℕ) (f : String) (ls : List String) : Option String :=
  match sumStats ls with
  | none => none
  | some t =>
    let n := ls.length
    let am : ℚ := if n = 0 then 0 else t.1 / n
    let a90 : ℚ := if n = 0 then 0 else t.2.1 / n
    let a95 : ℚ := if n = 0 then 0 else t.2.2 / n
    some (strJoin ((blockRawLines ls).map (fun l => l ++ "\n")) ++
      summaryLine d f am a90 a95 ++ "\n\n")

/-- Product `itertools.product(datasizes, frequencies)`: outer loop over the first
list, inner loop over the second (lines 31 and 74). -/
def combos (ds : List ℕ) (fs : List String) : List (ℕ × String) :=
  ds.flatMap (fun d => fs.map (fun f => (d, f)))

/-- Mode `"w"`: opening with `open(path, "w")` and writing `new` discards the
discarded. -/
def fileWrite (_contents new : String) : String :=
  new

/-- Mode `"a"`: opening with `open(path, "a")` and writing `new` appends after the
contents. -/
def fileAppend (contents new : String) : String :=
  contents ++ new

/-- The aggregation loop of lines 72-106 over the remaining combinations,
carrying the iteration counter and the current contents of `computed.out`.
The `Bool` is `true` when the loop ran to completion and `false` when it
died on an uncaught parse error. -/
def aggGo (cnt : ℕ) (dataLines : List String) :
    List (ℕ × String) → ℕ → String → String × Bool
  | [], _, contents => (contents, true)
  | (d, f) :: rest, i, contents =>
    match blockText d f (sliceFor cnt i dataLines) with
    | none => (contents, false)
    | some t => aggGo cnt dataLines rest (i + 1) (fileAppend contents t)

/-- The whole aggregation phase (lines 69-106): truncate `computed.out`
(previous contents `prev` are discarded by mode `"w"`), write the header,
then run the per-combination loop.  Returns the final contents of
`computed.out` and whether the phase completed without a fatal error. -/
def runAggregation (ds : List ℕ) (fs : List String) (cnt : ℕ)
    (dataLines : List String) (prev : String) : String × Bool :=
  aggGo cnt dataLines (combos ds fs) 0 (fileWrite prev headerText)

/-- The block texts of every combination in iteration order, as `Option`s
(proof helper: `aggGo` writes the longest `some`-prefix of this list). -/
def blockOpts (cnt : ℕ) (dataLines : List String) :
    List (ℕ × String) → ℕ → List (Option String)
  | [], _ => []
  | (d, f) :: rest, i =>
    blockText d f (sliceFor cnt i dataLines) :: blockOpts cnt dataLines rest (i + 1)

/-- The texts of the blocks written before the first failing block. -/
def okTexts (os : List (Option String)) : List String :=
  (os.takeWhile Option.isSome).map (fun o => o.getD "")

/-- Whether every block of the run parsed successfully. -/
def allOk (os : List (Option String)) : Bool :=
  os.all Option.isSome

/-- The raw data lines written into the `D*F` blocks, concatenated in
iteration order (the write loop of lines 101-102 over every iteration). -/
def concatRaw (ds : List ℕ) (fs : List String) (cnt : ℕ)
    (dataLines : List String) : List String :=
  (List.range (ds.length * fs.length)).flatMap
    (fun i => blockRawLines (sliceFor cnt i dataLines))

/-- Line 12: `datasizes = [3000, 30000, 300000]`. -/
def datasizes : List ℕ := [3000, 30000, 300000]

/-- Line 14: `frequencies = ["0.5s", "1s", "5s"]`. -/
def frequencies : List String := ["0.5s", "1s", "5s"]

/-- Line 15: `count = 5`. -/
def count : ℕ := 5

/-- The per-combination output file name of line 35:
`str(datasize) + "-" + freq + "-output.txt"`. -/
def outputName (d : ℕ) (f : String) : String :=
  natStr d ++ "-" ++ f ++ "-output.txt"

/-- The fully-resolved publish-client command for one combination
(lines 18-35): the fixed template with `-sleep`, `-datasize` and `-output`
filled in. -/
def commandFor (ipfile : String) (cnt : ℕ) (d : ℕ) (f : String) : List String :=
  ["./p2p_client_multi_streams_publish",
   "-start-index", "1",
   "-end-index", "2",
   "-ipfile", ipfile,
   "-topic", "topicA",
   "-count", natStr cnt,
   "-sleep", f,
   "-datasize", natStr d,
   "-output", outputName d f]

/-- The run phase (lines 31-41): the commands executed, in loop order. -/
def runPhase (ipfile : String) (cnt : ℕ) (ds : List ℕ) (fs : List String) :
    List (List String) :=
  (combos ds fs).map (fun p => commandFor ipfile cnt p.1 p.2)

/-- What `aggGo` computes: the accumulated contents followed by the texts of
the blocks up to the first parse failure, and whether no block failed. -/
theorem aggGo_eq (cnt : ℕ) (dl : List String) (cs : List (ℕ × String)) :
    ∀ (i : ℕ) (acc : String),
      aggGo cnt dl cs i acc =
        (acc ++ strJoin (okTexts (blockOpts cnt dl cs i)),
          allOk (blockOpts cnt dl cs i)) := by
  induction cs with
  | nil =>
    intro i acc
    simp [aggGo, blockOpts, okTexts, allOk, strJoin]
  | cons p rest ih =>
    intro i acc
    obtain ⟨d, f⟩ := p
    cases h : blockText d f (sliceFor cnt i dl) with
    | none =>
      simp [aggGo, blockOpts, okTexts, allOk, h, strJoin]
    | some t =>
      simp only [aggGo, blockOpts, h]
      rw [ih]
      simp [okTexts, allOk, fileAppend, strJoin, String.append_assoc]

/-- The run's combination list has exactly `D * F` entries. -/
theorem combos_length (ds : List ℕ) (fs : List String) :
    (combos ds fs).length = ds.length * fs.length := by
  induction ds with
  | nil => simp [combos]
  | cons d ds ih =>
    simp only [combos] at ih ⊢
    simp only [List.flatMap_cons, List.length_append, List.length_map,
      List.length_cons, ih]
    ring

/-- C1, corrected, counterexample: `computed.out` is opened with mode `"w"`
(line 69), so a second run does not concatenate after the previous run's
contents — with no data lines and prior contents `"PREV\n"`, the resulting
file does not start with the previous contents. -/
theorem c1_counterexample :
    (runAggregation datasizes frequencies count [] "PREV\n").1 ≠
      "PREV\n" ++ (runAggregation datasizes frequencies count [] "").1 := by
  have h1 : (runAggregation datasizes frequencies count [] "PREV\n").1 =
      (runAggregation datasizes frequencies count [] "").1 := rfl
  rw [h1]
  intro h
  have h2 := congrArg String.length h
  rw [String.length_append] at h2
  have h3 : ("PREV\n" : String).length = 5 := rfl
  omega

/-- C1 as amended: each run truncates `computed.out` — the final contents are
the header followed by the run's own blocks, independent of whatever the file
held before; only within a run are blocks appended after the header. -/
theorem c1_truncation (ds : List ℕ) (fs : List String) (cnt : ℕ)
    (dataLines : List String) (prev : String) :
    runAggregation ds fs cnt dataLines prev =
      runAggregation ds fs cnt dataLines "" ∧
    (runAggregation ds fs cnt dataLines prev).1 =
      headerText ++ strJoin (okTexts (blockOpts cnt dataLines (combos ds fs) 0)) := by
  constructor
  · rfl
  · rw [runAggregation, aggGo_eq]
    rfl

/-- The first `k` consecutive `c`-sized slices concatenate to the first
`k * c` elements. -/
theorem range_flatMap_slice (c : ℕ) (l : List String) :
    ∀ k : ℕ, (List.range k).flatMap (fun i => sliceFor c i l) = l.take (k * c) := by
  intro k
  induction k with
  | zero => simp
  | succ k ih =>
    rw [List.range_succ, List.flatMap_append, ih, Nat.succ_mul, List.take_add]
    simp [sliceFor]

/-- C2, corrected, counterexample: the write loop right-strips each raw line
(line 102), so a filtered input line with trailing whitespace is not
reproduced verbatim by concatenating the blocks' written raw lines. -/
theorem c2_counterexample :
    filterDataLines ["a 1 2 3 4 "] = ["a 1 2 3 4 "] ∧
    concatRaw datasizes frequencies count ["a 1 2 3 4 "] = ["a 1 2 3 4"] ∧
    concatRaw datasizes frequencies count ["a 1 2 3 4 "] ≠ ["a 1 2 3 4 "] := by
  refine ⟨by decide, by decide, by decide⟩

/-- C2 as amended: concatenating, in iteration order, the raw data lines
written into the `D*F` blocks yields the first `min(n, D*F*count)` filtered
lines, each right-stripped, in their original order; in particular it is the
filtered input itself whenever that input has at most `D*F*count` lines and
no trailing whitespace on any line. -/
theorem c2_blocks_concat (ds : List ℕ) (fs : List String) (cnt : ℕ)
    (dataLines : List String) :
    concatRaw ds fs cnt dataLines =
      (dataLines.take (ds.length * fs.length * cnt)).map pyRstrip := by
  unfold concatRaw blockRawLines
  rw [← List.map_flatMap, range_flatMap_slice]

/-- A slice that lies entirely inside the first `N` lines is unchanged by
truncating the input to `N` lines. -/
theorem sliceFor_take (cnt i N : ℕ) (l : List String) (h : i * cnt + cnt ≤ N) :
    sliceFor cnt i (l.take N) = sliceFor cnt i l := by
  unfold sliceFor
  rw [List.drop_take, List.take_take]
  congr 1
  omega

/-- Truncating the data lines to `N` does not change any block whose slice
ends at or before index `N`. -/
theorem blockOpts_take (cnt N : ℕ) (dl : List String) :
    ∀ (cs : List (ℕ × String)) (i : ℕ), (i + cs.length) * cnt ≤ N →
      blockOpts cnt (dl.take N) cs i = blockOpts cnt dl cs i := by
  intro cs
  induction cs with
  | nil => intro i _; rfl
  | cons p rest ih =>
    intro i h
    obtain ⟨d, f⟩ := p
    simp only [List.length_cons] at h
    rw [Nat.add_mul, Nat.add_mul] at h
    have h1 : i * cnt + cnt ≤ N := by omega
    have h2 : (i + 1 + rest.length) * cnt ≤ N := by
      rw [Nat.add_mul, Nat.add_mul]
      omega
    unfold blockOpts
    rw [sliceFor_take cnt i N dl h1, ih (i + 1) h2]

/-- C9: every filtered data line beyond index `D*F*count` is silently
dropped: the whole aggregation phase — the final contents of `computed.out`
and whether it completed — is unchanged when the data lines are truncated to
the first `D*F*count`, so the excess lines are written to no block,
contribute to no average, and trigger no error. -/
theorem c9_overflow_dropped (ds : List ℕ) (fs : List String) (cnt : ℕ)
    (dataLines : List String) (prev : String) :
    runAggregation ds fs cnt dataLines prev =
      runAggregation ds fs cnt (dataLines.take (ds.length * fs.length * cnt)) prev := by
  unfold runAggregation
  rw [aggGo_eq, aggGo_eq, blockOpts_take]
  rw [combos_length]
  simp

/-- C4: a line passes the filter of line 66 iff it is non-empty after
trimming, does not start with `#`, and does not start with `msgid`; the
filtered list is never longer than the input. -/
theorem c4_filter_iff (allLines : List String) :
    (∀ l, l ∈ filterDataLines allLines ↔
      (l ∈ allLines ∧ pyStrip l ≠ "" ∧ pyStartswith l "#" = false ∧
        pyStartswith l "msgid" = false)) ∧
    (filterDataLines allLines).length ≤ allLines.length := by
  constructor
  · intro l
    simp [filterDataLines, List.mem_filter, keepLine, Bool.and_eq_true,
      Bool.not_eq_true', and_assoc]
  · exact List.length_filter_le _ _

/-- If every line of the block parses, the running-total loop succeeds. -/
theorem sumStatsGo_isSome :
    ∀ (ls : List String), (∀ l ∈ ls, (parseLineStats l).isSome = true) →
      ∀ acc, (sumStatsGo acc ls).isSome = true := by
  intro ls
  induction ls with
  | nil => intro _ acc; rfl
  | cons l ls ih =>
    intro h acc
    have hl := h l (List.mem_cons_self l ls)
    cases hp : parseLineStats l with
    | none => rw [hp] at hl; simp at hl
    | some v =>
      simp only [sumStatsGo, hp]
      exact ih (fun x hx => h x (List.mem_cons_of_mem _ hx)) _

/-- If every line of the block parses, the block's text is produced. -/
theorem blockText_isSome (d : ℕ) (f : String) (ls : List String)
    (h : ∀ l ∈ ls, (parseLineStats l).isSome = true) :
    (blockText d f ls).isSome = true := by
  have hs := sumStatsGo_isSome ls h (0, 0, 0)
  unfold blockText sumStats
  cases hv : sumStatsGo (0, 0, 0) ls with
  | none => rw [hv] at hs; simp at hs
  | some t => simp

/-- A slice of the data lines is a sublist of the data lines. -/
theorem sliceFor_sublist (cnt i : ℕ) (dl : List String) :
    (sliceFor cnt i dl).Sublist dl :=
  (List.take_sublist _ _).trans (List.drop_sublist _ _)

/-- If every data line parses, no block of the run fails. -/
theorem blockOpts_allOk :
    ∀ (cs : List (ℕ × String)) (i cnt : ℕ) (dl : List String),
      (∀ l ∈ dl, (parseLineStats l).isSome = true) →
      allOk (blockOpts cnt dl cs i) = true := by
  intro cs
  induction cs with
  | nil => intro i cnt dl _; rfl
  | cons p rest ih =>
    intro i cnt dl h
    obtain ⟨d, f⟩ := p
    simp only [blockOpts, allOk, List.all_cons, Bool.and_eq_true]
    constructor
    · exact blockText_isSome d f _
        (fun l hl => h l ((sliceFor_sublist cnt i dl).subset hl))
    · simpa [allOk] using ih (i + 1) cnt dl h

/-- The two-decimal rendering of zero. -/
theorem fmt2_zero : fmt2 0 = "0.00" := by
  have h : Rat.floor ((0 : ℚ) * 100 + 1 / 2) = 0 := by norm_num [Rat.floor]
  simp only [fmt2, h]
  decide

/-- C5: on any well-formed input with fewer than `D*F*count` data lines the
aggregation phase completes without raising: trailing blocks are short or
empty, an empty block's text is just the summary line with all three
averages zero, and zero renders as `0.00` (the divide-by-zero guard of lines
95-97). -/
theorem c5_short_input_safe (ds : List ℕ) (fs : List String) (cnt : ℕ)
    (dataLines : List String) (prev : String)
    (hwf : ∀ l ∈ dataLines, (parseLineStats l).isSome = true)
    (_hlen : dataLines.length < ds.length * fs.length * cnt) :
    (runAggregation ds fs cnt dataLines prev).2 = true ∧
    (∀ (d : ℕ) (f : String), blockText d f [] =
      some (summaryLine d f 0 0 0 ++ "\n\n")) ∧
    fmt2 0 = "0.00" := by
  refine ⟨?_, ?_, fmt2_zero⟩
  · rw [runAggregation, aggGo_eq]
    exact blockOpts_allOk (combos ds fs) 0 cnt dataLines hwf
  · intro d f
    simp [blockText, sumStats, sumStatsGo, blockRawLines, strJoin]

/-- Witness for C5 at a concrete short input: one well-formed data line,
`1 < 3*3*5`. -/
theorem c5_witness :
    (∀ l ∈ ["m 1 2 3 4"], (parseLineStats l).isSome = true) ∧
    ([("m 1 2 3 4" : String)].length < datasizes.length * frequencies.length * count) ∧
    (runAggregation datasizes frequencies count ["m 1 2 3 4"] "").2 = true :=
  ⟨by decide, by decide,
    (c5_short_input_safe datasizes frequencies count ["m 1 2 3 4"] ""
      (by decide) (by decide)).1⟩

/-- If the first `j` block options are all `some` and the `j`-th is `none`,
the successful prefix is exactly the first `j` blocks. -/
theorem takeWhile_eq_take_of :
    ∀ (os : List (Option String)) (j : ℕ),
      (os.take j).all Option.isSome = true → os[j]? = some none →
      os.takeWhile Option.isSome = os.take j := by
  intro os
  induction os with
  | nil => intro j _ h2; simp at h2
  | cons o os ih =>
    intro j h1 h2
    cases j with
    | zero =>
      simp only [List.getElem?_cons_zero, Option.some.injEq] at h2
      subst h2
      simp [List.takeWhile_cons]
    | succ j =>
      simp only [List.take_succ_cons, List.all_cons, Bool.and_eq_true] at h1
      obtain ⟨ho, hrest⟩ := h1
      simp only [List.getElem?_cons_succ] at h2
      simp [List.takeWhile_cons, ho, List.take_succ_cons, ih j hrest h2]

/-- C7: if every block before the `j`-th parses and the `j`-th block fails
to parse (for instance a retained line with a non-numeric third column), the
aggregation phase dies fatally with `computed.out` holding exactly the
header and the blocks before `j` — the failing block's raw lines and summary
comment line are never written, and the already-processed blocks remain. -/
theorem c7_malformed_fatal (ds : List ℕ) (fs : List String) (cnt : ℕ)
    (dataLines : List String) (prev : String) (j : ℕ)
    (hok : ((blockOpts cnt dataLines (combos ds fs) 0).take j).all Option.isSome = true)
    (hbad : (blockOpts cnt dataLines (combos ds fs) 0)[j]? = some none) :
    runAggregation ds fs cnt dataLines prev =
      (headerText ++ strJoin (((blockOpts cnt dataLines (combos ds fs) 0).take j).map
        (fun o => o.getD "")), false) := by
  rw [runAggregation, aggGo_eq]
  simp only [fileWrite, Prod.mk.injEq]
  constructor
  · rw [okTexts, takeWhile_eq_take_of _ j hok hbad]
  · have hmem : (none : Option String) ∈ blockOpts cnt dataLines (combos ds fs) 0 := by
      have hj := List.getElem?_eq_some_iff.mp hbad
      obtain ⟨hlt, hget⟩ := hj
      exact hget ▸ List.getElem_mem hlt
    cases hall : allOk (blockOpts cnt dataLines (combos ds fs) 0) with
    | false => rfl
    | true =>
      have := List.all_eq_true.mp hall none hmem
      simp at this

/-- Witness for C7: block 0 holds five well-formed lines; block 1 holds one
line whose third column `xyz` is not numeric, so the run dies after writing
block 0. -/
theorem c7_witness :
    (((blockOpts count
        ["m 1 2 3 4", "m 1 2 3 4", "m 1 2 3 4", "m 1 2 3 4", "m 1 2 3 4",
          "id 1 xyz 2 3"]
        (combos datasizes frequencies) 0).take 1).all Option.isSome = true) ∧
    ((blockOpts count
        ["m 1 2 3 4", "m 1 2 3 4", "m 1 2 3 4", "m 1 2 3 4", "m 1 2 3 4",
          "id 1 xyz 2 3"]
        (combos datasizes frequencies) 0)[1]? = some none) ∧
    runAggregation datasizes frequencies count
        ["m 1 2 3 4", "m 1 2 3 4", "m 1 2 3 4", "m 1 2 3 4", "m 1 2 3 4",
          "id 1 xyz 2 3"] "" =
      (headerText ++ strJoin (((blockOpts count
          ["m 1 2 3 4", "m 1 2 3 4", "m 1 2 3 4", "m 1 2 3 4", "m 1 2 3 4",
            "id 1 xyz 2 3"]
          (combos datasizes frequencies) 0).take 1).map (fun o => o.getD "")),
        false) :=
  ⟨by decide, by decide,
    c7_malformed_fatal datasizes frequencies count
      ["m 1 2 3 4", "m 1 2 3 4", "m 1 2 3 4", "m 1 2 3 4", "m 1 2 3 4",
        "id 1 xyz 2 3"] "" 1 (by decide) (by decide)⟩

/-- C3, corrected, counterexample: the code parses whitespace-delimited
columns 2, 3 and 4 (0-indexed), not 3, 4 and 5.  On a six-column record the
two readings disagree, and on the documented five-field layout
`[message-id, n, mean, p90, p95]` the column-3,4,5 reading would even fail
with an `IndexError` while the code succeeds. -/
theorem c3_counterexample :
    parseLineStats "m 7 10 20 30 40" = some (mkRat 10 1, mkRat 20 1, mkRat 30 1) ∧
    parseLineStatsAt345 "m 7 10 20 30 40" = some (mkRat 20 1, mkRat 30 1, mkRat 40 1) ∧
    parseLineStats "m 7 10 20 30 40" ≠ parseLineStatsAt345 "m 7 10 20 30 40" ∧
    (parseLineStats "m 7 10 20 30").isSome = true ∧
    (parseLineStatsAt345 "m 7 10 20 30").isSome = false :=
  ⟨by decide, by decide, by decide, by decide, by decide⟩

/-- C3 as amended: the three values parsed, summed and averaged are the
whitespace-delimited columns 2, 3 and 4 (0-indexed) — the mean, p90 and p95
fields of a record laid out as `[message-id, n, mean, p90, p95, ...]`. -/
theorem c3_parsed_columns (line : String) (t0 t1 a b c : String)
    (rest : List String)
    (hsplit : pySplit line = t0 :: t1 :: a :: b :: c :: rest)
    (x y z : ℚ) (hx : parseFloat a = some x) (hy : parseFloat b = some y)
    (hz : parseFloat c = some z) :
    parseLineStats line = some (x, y, z) := by
  simp [parseLineStats, hsplit, hx, hy, hz]

/-- Witness for C3 at a concrete record: the parsed triple is the third,
fourth and fifth whitespace-delimited tokens. -/
theorem c3_witness :
    pySplit "m 7 1.5 2.5 3.5 9" = ["m", "7", "1.5", "2.5", "3.5", "9"] ∧
    parseFloat "1.5" = some (mkRat 3 2) ∧
    parseFloat "2.5" = some (mkRat 5 2) ∧
    parseFloat "3.5" = some (mkRat 7 2) ∧
    parseLineStats "m 7 1.5 2.5 3.5 9" = some (mkRat 3 2, mkRat 5 2, mkRat 7 2) :=
  ⟨by decide, by decide, by decide, by decide,
    c3_parsed_columns "m 7 1.5 2.5 3.5 9" "m" "7" "1.5" "2.5" "3.5" ["9"]
      (by decide) (mkRat 3 2) (mkRat 5 2) (mkRat 7 2)
      (by decide) (by decide) (by decide)⟩

/-- C10: the `#` and `msgid` exclusions of line 66 test the raw untrimmed
line, so for a line whose first character is whitespace neither exclusion
ever applies and the line is retained exactly when it is non-blank — e.g.
`"  # comment"` is kept as a data line (and later fed to the numeric
parser). -/
theorem c10_raw_untrimmed (l : String) (c : Char) (cs : List Char)
    (hc : l.toList = c :: cs) (hsp : pyIsSpace c = true) :
    pyStartswith l "#" = false ∧ pyStartswith l "msgid" = false ∧
    (keepLine l = true ↔ pyStrip l ≠ "") := by
  have hc' : l.data = c :: cs := hc
  have hd : c = ' ' ∨ c = '\t' ∨ c = '\n' ∨ c = '\r' ∨ c = '\x0b' ∨ c = '\x0c' := by
    simpa [pyIsSpace, or_assoc] using hsp
  have hne1 : ('#' == c) = false := by
    rcases hd with h | h | h | h | h | h <;> subst h <;> decide
  have hne2 : ('m' == c) = false := by
    rcases hd with h | h | h | h | h | h <;> subst h <;> decide
  have h1 : pyStartswith l "#" = false := by
    have : ("#" : String).toList = ['#'] := rfl
    simp [pyStartswith, this, hc', List.isPrefixOf, hne1]
  have h2 : pyStartswith l "msgid" = false := by
    have : ("msgid" : String).toList = ['m', 's', 'g', 'i', 'd'] := rfl
    simp [pyStartswith, this, hc', List.isPrefixOf, hne2]
  refine ⟨h1, h2, ?_⟩
  simp [keepLine, h1, h2]

/-- Witness for C10 at the concrete line `"  # comment"`: its first
character is a space, it is retained by the filter, and the numeric parse of
this retained line then fails. -/
theorem c10_witness :
    ("  # comment" : String).toList = ' ' :: " # comment".toList ∧
    pyIsSpace ' ' = true ∧
    keepLine "  # comment" = true ∧
    parseLineStats "  # comment" = none := by
  refine ⟨rfl, by decide, ?_, by decide⟩
  exact (c10_raw_untrimmed "  # comment" ' ' " # comment".toList rfl
    (by decide)).2.2.mpr (by decide)

/-- The character `digitChar k` is a decimal digit for `k < 10`. -/
theorem digitChar_isDigit (k : ℕ) (h : k < 10) : (digitChar k).isDigit = true := by
  interval_cases k <;> decide

/-- The character `digitChar k` decodes back to `k` for `k < 10`. -/
theorem digitChar_val (k : ℕ) (h : k < 10) : (digitChar k).toNat - 48 = k := by
  interval_cases k <;> decide

/-- Every character `natDigitsRevFuel` emits is a digit. -/
theorem natDigitsRevFuel_isDigit :
    ∀ (fuel n : ℕ), n < fuel → ∀ c ∈ natDigitsRevFuel fuel n, c.isDigit = true := by
  intro fuel
  induction fuel with
  | zero => intro n h; exact absurd h (Nat.not_lt_zero n)
  | succ fuel ih =>
    intro n h c hc
    unfold natDigitsRevFuel at hc
    by_cases h10 : n < 10
    · simp only [h10, if_true, List.mem_singleton] at hc
      subst hc
      exact digitChar_isDigit n h10
    · simp only [h10, if_false, List.mem_cons] at hc
      rcases hc with hc | hc
      · subst hc
        exact digitChar_isDigit _ (Nat.mod_lt _ (by norm_num))
      · exact ih (n / 10) (by omega) c hc

/-- The digits from `natDigitsRevFuel` are decoded by `digitsRevVal` (given enough fuel). -/
theorem digitsRevVal_fuel :
    ∀ (fuel n : ℕ), n < fuel → digitsRevVal (natDigitsRevFuel fuel n) = n := by
  intro fuel
  induction fuel with
  | zero => intro n h; exact absurd h (Nat.not_lt_zero n)
  | succ fuel ih =>
    intro n h
    unfold natDigitsRevFuel
    by_cases h10 : n < 10
    · simp [h10, digitsRevVal, digitChar_val n h10]
    · have hm : n % 10 < 10 := Nat.mod_lt _ (by norm_num)
      simp [h10, digitsRevVal, ih (n / 10) (by omega), digitChar_val (n % 10) hm]
      omega

/-- Every character of `natStr n` is a digit. -/
theorem natStr_chars (n : ℕ) : ∀ c ∈ (natStr n).toList, c.isDigit = true := by
  intro c hc
  have hc' : c ∈ (natDigitsRevFuel (n + 1) n).reverse := hc
  rw [List.mem_reverse] at hc'
  exact natDigitsRevFuel_isDigit (n + 1) n (Nat.lt_succ_self n) c hc'

/-- Decimal rendering of naturals is injective. -/
theorem natStr_inj : Function.Injective natStr := by
  intro m n h
  have hm := digitsRevVal_fuel (m + 1) m (Nat.lt_succ_self m)
  have hn := digitsRevVal_fuel (n + 1) n (Nat.lt_succ_self n)
  have hdata : (natDigitsRevFuel (m + 1) m).reverse =
      (natDigitsRevFuel (n + 1) n).reverse := congrArg String.data h
  have h2 : natDigitsRevFuel (m + 1) m = natDigitsRevFuel (n + 1) n := by
    have := congrArg List.reverse hdata
    simpa using this
  rw [← hm, ← hn, h2]

/-- Rendering via `fmt2` always yields an integer part, a dot, and exactly two digit
characters, with no other dot in the string. -/
theorem fmt2_shape (q : ℚ) :
    ∃ pre c1 c2, fmt2 q = pre ++ "." ++ String.mk [c1, c2] ∧
      c1.isDigit = true ∧ c2.isDigit = true ∧ '.' ∉ pre.toList := by
  refine ⟨(if q < 0 then "-" else "") ++
      natStr ((Rat.floor (q * 100 + 1 / 2)).natAbs / 100),
    digitChar ((Rat.floor (q * 100 + 1 / 2)).natAbs / 10 % 10),
    digitChar ((Rat.floor (q * 100 + 1 / 2)).natAbs % 10), ?_, ?_, ?_, ?_⟩
  · simp [fmt2, String.append_assoc]
  · exact digitChar_isDigit _ (Nat.mod_lt _ (by norm_num))
  · exact digitChar_isDigit _ (Nat.mod_lt _ (by norm_num))
  · intro hmem
    have hmem2 : '.' ∈ (if q < 0 then "-" else "").toList ++
        (natStr ((Rat.floor (q * 100 + 1 / 2)).natAbs / 100)).toList := hmem
    rcases List.mem_append.mp hmem2 with hm | hm
    · by_cases hq : q < 0 <;> simp [hq] at hm
    · have := natStr_chars _ '.' hm
      simp at this

/-- C8: every block's summary comment line has the exact form
`# datasize=<d> freq=<f> avg_mean=<m> avg_p90=<p90> avg_p95=<p95>`, and each
of the three averages is rendered with exactly two digits after its only
decimal point, regardless of the input values' precision. -/
theorem c8_summary_format :
    (∀ (d : ℕ) (f : String) (am a90 a95 : ℚ),
      summaryLine d f am a90 a95 =
        "# datasize=" ++ natStr d ++ " freq=" ++ f ++ " avg_mean=" ++ fmt2 am ++
          " avg_p90=" ++ fmt2 a90 ++ " avg_p95=" ++ fmt2 a95) ∧
    (∀ q : ℚ, ∃ pre c1 c2, fmt2 q = pre ++ "." ++ String.mk [c1, c2] ∧
      c1.isDigit = true ∧ c2.isDigit = true ∧ '.' ∉ pre.toList) :=
  ⟨fun _ _ _ _ _ => rfl, fmt2_shape⟩

/-- A rendered natural `natStr n` never contains a dash. -/
theorem noDash_natStr (n : ℕ) : '-' ∉ (natStr n).toList := by
  intro h
  exact absurd (natStr_chars n '-' h) (by decide)

/-- Splitting two equal lists at a dash that occurs in neither left part:
the left and right parts agree. -/
theorem dashSplit :
    ∀ (A : List Char) (B A' B' : List Char), '-' ∉ A → '-' ∉ A' →
      A ++ '-' :: B = A' ++ '-' :: B' → A = A' ∧ B = B' := by
  intro A
  induction A with
  | nil =>
    intro B A' B' _ hA' h
    cases A' with
    | nil => simpa using h
    | cons a as =>
      simp only [List.nil_append, List.cons_append, List.cons.injEq] at h
      obtain ⟨h1, _⟩ := h
      exfalso
      apply hA'
      rw [← h1]
      exact List.mem_cons_self _ _
  | cons a as ih =>
    intro B A' B' hA hA' h
    cases A' with
    | nil =>
      simp only [List.nil_append, List.cons_append, List.cons.injEq] at h
      obtain ⟨h1, _⟩ := h
      exfalso
      apply hA
      rw [h1]
      exact List.mem_cons_self _ _
    | cons a' as' =>
      simp only [List.cons_append, List.cons.injEq] at h
      obtain ⟨h1, h2⟩ := h
      obtain ⟨e1, e2⟩ := ih B as' B'
        (fun hm => hA (List.mem_cons_of_mem _ hm))
        (fun hm => hA' (List.mem_cons_of_mem _ hm)) h2
      exact ⟨by rw [h1, e1], e2⟩

/-- The `{datasize}-{freq}-output.txt` naming is injective in the
(datasize, frequency) pair: the datasize digits contain no dash, so the
first dash separates the two fields. -/
theorem outputName_inj :
    Function.Injective (fun p : ℕ × String => outputName p.1 p.2) := by
  rintro ⟨d, f⟩ ⟨d', f'⟩ h
  simp only at h
  have hl : (natStr d).toList ++ '-' :: (f.toList ++ ("-output.txt").toList) =
      (natStr d').toList ++ '-' :: (f'.toList ++ ("-output.txt").toList) := by
    have h2 : (natStr d).toList ++ ("-" : String).toList ++ f.toList ++
        ("-output.txt").toList =
        (natStr d').toList ++ ("-" : String).toList ++ f'.toList ++
          ("-output.txt").toList := congrArg String.toList h
    simpa [List.append_assoc] using h2
  obtain ⟨e1, e2⟩ := dashSplit _ _ _ _ (noDash_natStr d) (noDash_natStr d') hl
  have hd : d = d' := natStr_inj (String.ext e1)
  have hf : f = f' := String.ext (List.append_inj' e2 rfl).1
  rw [hd, hf]

/-- C6: for all sweep parameter lists (taken as duplicate-free parameter
sets) the run phase issues exactly `D*F` publish-client invocations, one per
(datasize, frequency) pair in product order — outer loop over datasizes,
inner over frequencies — and the `-output` argument of each is the uniquely
named file `{datasize}-{freq}-output.txt`. -/
theorem c6_run_phase (ipfile : String) (cnt : ℕ) (ds : List ℕ)
    (fs : List String) (hds : ds.Nodup) (hfs : fs.Nodup) :
    (runPhase ipfile cnt ds fs).length = ds.length * fs.length ∧
    runPhase ipfile cnt ds fs =
      ds.flatMap (fun d => fs.map (fun f => commandFor ipfile cnt d f)) ∧
    (∀ (d : ℕ) (f : String),
      (commandFor ipfile cnt d f)[16]? = some (outputName d f)) ∧
    ((combos ds fs).map (fun p => outputName p.1 p.2)).Nodup := by
  refine ⟨?_, ?_, fun d f => rfl, ?_⟩
  · simp [runPhase, combos_length]
  · simp only [runPhase, combos, List.map_flatMap, List.map_map]
    rfl
  · have hcomb : (combos ds fs).Nodup := by
      have he : combos ds fs = ds.product fs := rfl
      rw [he]
      exact List.Nodup.product hds hfs
    exact hcomb.map outputName_inj

/-- Witness for C6 at the script's own parameter lists. -/
theorem c6_witness :
    datasizes.Nodup ∧ frequencies.Nodup ∧
    (runPhase "ips.txt" count datasizes frequencies).length = 9 ∧
    ((combos datasizes frequencies).map (fun p => outputName p.1 p.2)).Nodup := by
  refine ⟨by decide, by decide, ?_, ?_⟩
  · have h := (c6_run_phase "ips.txt" count datasizes frequencies
      (by decide) (by decide)).1
    simpa [datasizes, frequencies] using h
  · exact (c6_run_phase "ips.txt" count datasizes frequencies
      (by decide) (by decide)).2.2.2
